import Mathlib

/-!
Verification of the OAuth callback reconciliation flow of the Sociable_AI
repository.  The definitions below are a shallow embedding of the
handle-aware callback component (the file containing `handleOAuthCallback`
with the select-then-insert-or-update persistence strategy) together with
the profile fetcher shared by both callback components.  Browser and
backend collaborators (session store, token-exchange endpoint, platform
HTTP APIs, database error outcomes) are modelled as oracles carried in an
environment record; browser storage and the social-account table are
explicit state threaded through the handler.  Timestamps are modelled as
epoch milliseconds (the source renders the same instants as ISO strings).
-/

namespace OAuth

/-! ## Duck-typed JSON values

JavaScript values reaching the duck-typed extraction code.  `undefined`
is the result of reading an absent property of an object; reading a
property of `null` or `undefined` throws, which the accessor below
signals with `none`. -/

mutual
inductive Js where
  | null
  | undefined
  | str (s : String)
  | num (n : Int)
  | obj (fields : JsFields)
deriving DecidableEq
inductive JsFields where
  | nil
  | cons (k : String) (v : Js) (rest : JsFields)
deriving DecidableEq
end

def JsFields.lookup : JsFields → String → Option Js
  | .nil, _ => none
  | .cons k v rest, key => if k = key then some v else rest.lookup key

/-- Property access; `none` models a thrown TypeError (access on
null/undefined), `some .undefined` an absent property. -/
def Js.get : Js → String → Option Js
  | .null, _ => none
  | .undefined, _ => none
  | .obj fs, k => some ((fs.lookup k).getD .undefined)
  | .str _, _ => some .undefined
  | .num _, _ => some .undefined

/-- JavaScript truthiness of a value. -/
def Js.truthy : Js → Bool
  | .null => false
  | .undefined => false
  | .str s => !(s == "")
  | .num n => !(n == 0)
  | .obj _ => true

/-- JavaScript `a || b`. -/
def Js.orElse (a b : Js) : Js := if a.truthy then a else b

/-- String coercion as performed by a template literal. -/
def Js.display : Js → String
  | .null => "null"
  | .undefined => "undefined"
  | .str s => s
  | .num n => toString n
  | .obj _ => "object"

/-- JavaScript truthiness of a `string | null` value (query parameters and
storage reads): present and non-empty. -/
def optStrTruthy : Option String → Bool
  | some s => !(s == "")
  | none => false

/-! ## Browser storage -/

structure Store where
  entries : List (String × String)
deriving DecidableEq

def Store.get (st : Store) (k : String) : Option String :=
  (st.entries.find? (fun e => e.1 == k)).map (fun e => e.2)

def Store.remove (st : Store) (k : String) : Store :=
  ⟨st.entries.filter (fun e => !(e.1 == k))⟩

def Store.set (st : Store) (k v : String) : Store :=
  ⟨(k, v) :: (st.remove k).entries⟩

def Store.empty : Store := ⟨[]⟩

/-! ## Data model -/

structure AuthUser where
  id : String
deriving DecidableEq

structure TokenData where
  access_token : String
  refresh_token : Option String
  expires_in : Option Nat
deriving DecidableEq

structure AccountInfo where
  name : Js
  handle : Js
deriving DecidableEq

structure HttpRequest where
  url : String
  authorization : String
deriving DecidableEq

structure HttpResponse where
  ok : Bool
  body : Js
deriving DecidableEq

structure SocialAccountRecord where
  id : Nat
  user_id : String
  platform : String
  account_name : Js
  account_handle : Js
  access_token : String
  refresh_token : Option String
  token_expires_at : Option Nat
  is_connected : Bool
  updated_at : Option Nat
deriving DecidableEq

structure DB where
  rows : List SocialAccountRecord
  nextId : Nat
deriving DecidableEq

structure QueryParams where
  code : Option String
  state : Option String
  error : Option String
  error_description : Option String

/-- Environment of one callback invocation: redirect data plus the
behaviour of the external collaborators during this invocation. -/
structure Env where
  search : QueryParams
  pathname : String
  activeSession : Option AuthUser
  parseSession : String → Option Js
  setSession : Js → Js → Option AuthUser
  exchange : String → String → String → Except String TokenData
  net : HttpRequest → HttpResponse
  updateError : Option String
  insertError : Option String
  now : Nat
  hasOpener : Bool

/-- Network and database operations performed by the handler, in order. -/
inductive NetAction where
  | getSession
  | setSession
  | tokenExchange (platform code st : String)
  | profileFetch (url authorization : String)
  | dbSelect (userId platform : String) (handle : Js)
  | dbUpdate (rowId : Nat)
  | dbInsert
deriving DecidableEq

structure PostMessage where
  type : String
  platform : String
deriving DecidableEq

/-- Window-lifecycle actions scheduled after the success display delay. -/
inductive FinalAction where
  | close
  | post (message : PostMessage)
  | navigateRoot
deriving DecidableEq

inductive UiStatus where
  | loading
  | success
  | error
deriving DecidableEq

structure OutState where
  status : UiStatus
  message : String
  localStore : Store
  sessionStore : Store
  db : DB
  trace : List NetAction
  finalActs : List FinalAction
deriving DecidableEq

/-! ## Profile fetcher (`fetchAccountInfo`) -/

def platformEndpoint : String → Option String
  | "twitter" => some "https://api.twitter.com/2/users/me"
  | "linkedin" => some "https://api.linkedin.com/v2/me"
  | "instagram" => some "https://graph.instagram.com/me?fields=id,username"
  | "facebook" => some "https://graph.facebook.com/me?fields=id,name"
  | "tiktok" =>
      some "https://open-api.tiktok.com/user/info/?fields=open_id,union_id,avatar_url,display_name"
  | _ => none

/-- Per-platform response-shape extraction (the second switch of the
source).  `none` models a thrown TypeError during property access. -/
def extractAccountInfo (platform : String) (data : Js) : Option AccountInfo :=
  match platform with
  | "twitter" =>
      match data.get "data" with
      | none => none
      | some d =>
          match d.get "name", d.get "username" with
          | some n, some u => some ⟨Js.orElse n u, .str ("@" ++ u.display)⟩
          | _, _ => none
  | "linkedin" =>
      match data.get "localizedFirstName", data.get "localizedLastName", data.get "id" with
      | some f, some l, some i => some ⟨.str (f.display ++ " " ++ l.display), i⟩
      | _, _, _ => none
  | "instagram" =>
      match data.get "username" with
      | some u => some ⟨u, .str ("@" ++ u.display)⟩
      | none => none
  | "facebook" =>
      match data.get "name", data.get "id" with
      | some n, some i => some ⟨n, i⟩
      | _, _ => none
  | "tiktok" =>
      match data.get "data" with
      | none => none
      | some d =>
          match d.get "user" with
          | none => none
          | some u =>
              match u.get "display_name", u.get "open_id" with
              | some dn, some oi => some ⟨dn, oi⟩
              | _, _ => none
  | _ => some ⟨.str "Unknown", .str "Unknown"⟩

/-- `fetchAccountInfo` of the source: dispatch to a fixed endpoint with a
bearer-token header, then extract per platform.  Returns the result
together with the HTTP requests actually issued. -/
def fetchAccountInfo (net : HttpRequest → HttpResponse) (platform accessToken : String) :
    Except String AccountInfo × List NetAction :=
  match platformEndpoint platform with
  | none => (.error ("Unsupported platform: " ++ platform), [])
  | some url =>
      let auth := "Bearer " ++ accessToken
      let resp := net ⟨url, auth⟩
      let acts := [NetAction.profileFetch url auth]
      if resp.ok then
        match extractAccountInfo platform resp.body with
        | some info => (.ok info, acts)
        | none => (.error "TypeError", acts)
      else
        (.error ("Failed to fetch account info from " ++ platform), acts)

/-! ## Callback handler (`handleOAuthCallback`, handle-aware variant) -/

def sessionKey (platform : String) : String := "oauth_supabase_session_" ++ platform
def usernameKey (platform : String) : String := "oauth_username_" ++ platform
def displayNameKey (platform : String) : String := "oauth_display_name_" ++ platform

def notLoggedInMsg : String :=
  "You are not logged in. Please log in first and try connecting your Twitter account again."

/-- `pathname.split('/')` on the character list, with JavaScript `split`
semantics. -/
def splitChar (c : Char) : List Char → List (List Char)
  | [] => [[]]
  | x :: xs =>
      let r := splitChar c xs
      if x = c then [] :: r
      else
        match r with
        | [] => [[x]]
        | y :: ys => (x :: y) :: ys

/-- `pathParts[pathParts.length - 1]` for `pathParts = pathname.split('/')`. -/
def lastSegment (pathname : String) : String :=
  String.mk (((splitChar '/' pathname.data).getLast?).getD [])

/-- Message shown on error: `error.message || 'Failed to connect account'`. -/
def errorOut (msg : String) (ls ss : Store) (db : DB) (tr : List NetAction) : OutState :=
  ⟨.error, if msg = "" then "Failed to connect account" else msg, ls, ss, db, tr, []⟩

/-- `tokenData.refresh_token || null` (an empty string is falsy). -/
def refreshOrNull : Option String → Option String
  | some s => if s = "" then none else some s
  | none => none

/-- `tokenData.expires_in ? Date.now() + expires_in * 1000 : null`
(zero is falsy). -/
def expiryOf (now : Nat) : Option Nat → Option Nat
  | some n => if n = 0 then none else some (now + n * 1000)
  | none => none

/-- Column set written by the reconnect update of the source. -/
def updatedRow (env : Env) (td : TokenData) (r : SocialAccountRecord) : SocialAccountRecord :=
  { r with
    access_token := td.access_token
    refresh_token := refreshOrNull td.refresh_token
    token_expires_at := expiryOf env.now td.expires_in
    is_connected := true
    updated_at := some env.now }

/-- `storedDisplayName || accountInfo.name` (an empty string is falsy). -/
def displayNameOr (storedDisplayName : Option String) (fetched : Js) : Js :=
  match storedDisplayName with
  | some d => if d = "" then fetched else .str d
  | none => fetched

/-- Row inserted on first connect by the source. -/
def insertedRow (env : Env) (rowId : Nat) (uid platform : String) (info : AccountInfo)
    (td : TokenData) (storedDisplayName : Option String) : SocialAccountRecord :=
  { id := rowId
    user_id := uid
    platform := platform
    account_name := displayNameOr storedDisplayName info.name
    account_handle := info.handle
    access_token := td.access_token
    refresh_token := refreshOrNull td.refresh_token
    token_expires_at := expiryOf env.now td.expires_in
    is_connected := true
    updated_at := none }

/-- The select predicate `eq(user_id).eq(platform).eq(account_handle)`. -/
def recordMatches (uid platform : String) (handle : Js) (r : SocialAccountRecord) : Bool :=
  r.user_id == uid && r.platform == platform && r.account_handle == handle

def DB.find (db : DB) (uid platform : String) (handle : Js) : Option SocialAccountRecord :=
  db.rows.find? (recordMatches uid platform handle)

/-- Success epilogue of the handle-aware variant: `window.close()` first,
then `window.opener?.postMessage(..., origin)`. -/
def successFinalActs (hasOpener : Bool) (platform : String) : List FinalAction :=
  .close :: (if hasOpener then [.post ⟨"oauth_success", platform⟩] else [])

/-- Success epilogue of the sibling upsert-variant component: post to the
opener then close when an opener exists, otherwise navigate to the
application root. -/
def successFinalActsUpsert (hasOpener : Bool) (platform : String) : List FinalAction :=
  if hasOpener then [.post ⟨"oauth_success", platform⟩, .close] else [.navigateRoot]

def successMsg (platform : String) : String :=
  "Successfully connected your " ++ platform ++ " account!"

/-- Persistence step: select by (user_id, platform, account_handle), then
update in place or insert. -/
def stagePersist (env : Env) (ls ss : Store) (db : DB) (tr : List NetAction)
    (uid platform : String) (info : AccountInfo) (td : TokenData)
    (storedDisplayName : Option String) : OutState :=
  match db.find uid platform info.handle with
  | some existing =>
      let tr := tr ++ [.dbSelect uid platform info.handle, .dbUpdate existing.id]
      match env.updateError with
      | some e => errorOut e ls ss db tr
      | none =>
          let rows := db.rows.map (fun r => if r.id = existing.id then updatedRow env td r else r)
          ⟨.success, successMsg platform, ls, ss, ⟨rows, db.nextId⟩, tr,
            successFinalActs env.hasOpener platform⟩
  | none =>
      let tr := tr ++ [.dbSelect uid platform info.handle, .dbInsert]
      match env.insertError with
      | some e => errorOut e ls ss db tr
      | none =>
          ⟨.success, successMsg platform,
            ls, ss,
            ⟨db.rows ++ [insertedRow env db.nextId uid platform info td storedDisplayName],
              db.nextId + 1⟩,
            tr, successFinalActs env.hasOpener platform⟩

/-- Display-hint step: read both sessionStorage hints, delete both, then
persist (only the display-name hint is ever used). -/
def stageHints (env : Env) (ls ss : Store) (db : DB) (tr : List NetAction)
    (uid platform : String) (info : AccountInfo) (td : TokenData) : OutState :=
  let _storedUsername := ss.get (usernameKey platform)
  let storedDisplayName := ss.get (displayNameKey platform)
  let ss := (ss.remove (usernameKey platform)).remove (displayNameKey platform)
  stagePersist env ls ss db tr uid platform info td storedDisplayName

/-- Profile-fetch step. -/
def stageFetch (env : Env) (ls ss : Store) (db : DB) (tr : List NetAction)
    (uid platform : String) (td : TokenData) : OutState :=
  match fetchAccountInfo env.net platform td.access_token with
  | (.error e, acts) => errorOut e ls ss db (tr ++ acts)
  | (.ok info, acts) => stageHints env ls ss db (tr ++ acts) uid platform info td

/-- Token-exchange step. -/
def stageExchange (env : Env) (ls ss : Store) (db : DB) (tr : List NetAction)
    (uid platform code st : String) : OutState :=
  let tr := tr ++ [NetAction.tokenExchange platform code st]
  match env.exchange platform code st with
  | .error e => errorOut e ls ss db tr
  | .ok td => stageFetch env ls ss db tr uid platform td

/-- Session-restoration step: an active session, else a snapshot stored
under the platform-scoped key, parsed and handed to the backend session-set
operation.  The snapshot is removed only when parsing and the property
accesses succeed, mirroring the placement of `removeItem` inside the `try`
block after `JSON.parse` in the source. -/
def stageSession (env : Env) (ls ss : Store) (db : DB) (tr : List NetAction)
    (platform code st : String) : OutState :=
  match env.activeSession with
  | some u => stageExchange env ls ss db (tr ++ [NetAction.getSession]) u.id platform code st
  | none =>
      if optStrTruthy (ls.get (sessionKey platform)) then
        match env.parseSession ((ls.get (sessionKey platform)).getD "") with
        | none => errorOut notLoggedInMsg ls ss db (tr ++ [NetAction.getSession])
        | some parsed =>
            match parsed.get "access_token" with
            | none => errorOut notLoggedInMsg ls ss db (tr ++ [NetAction.getSession])
            | some at_ =>
                match parsed.get "refresh_token" with
                | none => errorOut notLoggedInMsg ls ss db (tr ++ [NetAction.getSession])
                | some rt =>
                    match env.setSession at_ rt with
                    | some u =>
                        stageExchange env (ls.remove (sessionKey platform)) ss db
                          (tr ++ [NetAction.getSession] ++ [NetAction.setSession])
                          u.id platform code st
                    | none =>
                        errorOut notLoggedInMsg (ls.remove (sessionKey platform)) ss db
                          (tr ++ [NetAction.getSession] ++ [NetAction.setSession])
      else errorOut notLoggedInMsg ls ss db (tr ++ [NetAction.getSession])

/-- The callback handler of the handle-aware variant. -/
def handleOAuthCallback (env : Env) (ls ss : Store) (db : DB) : OutState :=
  if optStrTruthy env.search.error then
    errorOut ((if optStrTruthy env.search.error_description then env.search.error_description
               else env.search.error).getD "") ls ss db []
  else if optStrTruthy env.search.code && optStrTruthy env.search.state then
    if lastSegment env.pathname = "" then errorOut "Platform not specified" ls ss db []
    else stageSession env ls ss db [] (lastSegment env.pathname)
           (env.search.code.getD "") (env.search.state.getD "")
  else errorOut "Missing authorization code or state" ls ss db []

/-! ## Derived predicates used by the verification -/

/-- Network/database classification of trace entries. -/
def isDbAction : NetAction → Bool
  | .dbSelect _ _ _ => true
  | .dbUpdate _ => true
  | .dbInsert => true
  | _ => false

/-- A trace containing no database operations. -/
def preTrace (tr : List NetAction) : Prop := ∀ a ∈ tr, isDbAction a = false

/-- The reconciliation key of a persisted row. -/
def keyOf (r : SocialAccountRecord) : String × String × Js :=
  (r.user_id, r.platform, r.account_handle)

/-- Table invariant: at most one row per (user_id, platform,
account_handle) tuple, pairwise-distinct row ids, fresh id counter. -/
def DBinv (db : DB) : Prop :=
  db.rows.Pairwise (fun a b => keyOf a ≠ keyOf b ∧ a.id ≠ b.id) ∧
  ∀ r ∈ db.rows, r.id < db.nextId

/-- Decomposition target for a run: either an error exit that left the
database untouched, or the persistence step reached with a
database-action-free prefix trace, the path-derived platform, and the
display-name hint read from the original sessionStorage. -/
def ReachesPersist (env : Env) (ss : Store) (db : DB) (platform : String)
    (out : OutState) : Prop :=
  (out.db = db ∧ out.status = .error ∧ preTrace out.trace)
  ∨ ∃ ls2 tr uid info td,
      out = stagePersist env ls2
              ((ss.remove (usernameKey platform)).remove (displayNameKey platform)) db tr
              uid platform info td (ss.get (displayNameKey platform))
      ∧ preTrace tr

/-! ## Concrete environments exercising the handler -/

def dbEmpty : DB := ⟨[], 0⟩

/-- The documented end-to-end scenario: redirect `?code=abc&state=xyz` on
path `/oauth/callback/twitter`, a valid stored session snapshot, token
exchange yielding access token `tok` with `expires_in` 3600, and the
Twitter profile API answering name `Jane`, username `jane_d`. -/
def envTw : Env :=
  { search := ⟨some "abc", some "xyz", none, none⟩
    pathname := "/oauth/callback/twitter"
    activeSession := none
    parseSession := fun _ =>
      some (.obj (.cons "access_token" (.str "sat") (.cons "refresh_token" (.str "srt") .nil)))
    setSession := fun _ _ => some ⟨"user-1"⟩
    exchange := fun p c s =>
      if p = "twitter" && c = "abc" && s = "xyz" then .ok ⟨"tok", none, some 3600⟩
      else .error "unexpected exchange"
    net := fun req =>
      if req.url = "https://api.twitter.com/2/users/me" then
        ⟨true, .obj (.cons "data"
          (.obj (.cons "name" (.str "Jane") (.cons "username" (.str "jane_d") .nil))) .nil)⟩
      else ⟨false, .null⟩
    updateError := none
    insertError := none
    now := 1700000000000
    hasOpener := true }

/-- localStorage holding the session snapshot for the scenario. -/
def lsTw : Store := Store.empty.set (sessionKey "twitter") "sess"

/-- The scenario run against an empty table. -/
def outTw : OutState := handleOAuthCallback envTw lsTw Store.empty dbEmpty

/-- The scenario environment with an unparseable session snapshot:
`JSON.parse` throws on every stored value. -/
def envBadSnap : Env := { envTw with parseSession := fun _ => none }

/-- localStorage holding a malformed snapshot. -/
def lsBadSnap : Store := Store.empty.set (sessionKey "twitter") "garbage"

/-- The scenario environment with an empty-string `error` query
parameter, which is present but falsy. -/
def envEmptyErr : Env := { envTw with search := ⟨some "abc", some "xyz", some "", none⟩ }

/-- Scenario environment whose redirect lacks the `code` parameter. -/
def envNoCode : Env := { envTw with search := ⟨none, some "xyz", none, none⟩ }

/-- Scenario environment with a platform-reported OAuth error. -/
def envDenied : Env :=
  { envTw with search := ⟨some "abc", some "xyz", some "access_denied", some "denied"⟩ }

/-- sessionStorage holding an empty-string display-name hint. -/
def ssEmptyHint : Store := Store.empty.set (displayNameKey "twitter") ""

/-- sessionStorage holding a non-empty display-name hint. -/
def ssHint : Store := Store.empty.set (displayNameKey "twitter") "Hint"

/-- A previously connected row for the scenario user and handle. -/
def rowTw : SocialAccountRecord :=
  ⟨0, "user-1", "twitter", .str "Old Name", .str "@jane_d", "oldtok", none, none, false, none⟩

/-- Table already containing `rowTw`. -/
def dbTw : DB := ⟨[rowTw], 1⟩

end OAuth

namespace OAuth

/-! ## Store lemmas -/

theorem find?_filter_key {l : List (String × String)} {k k' : String} (h : k' ≠ k) :
    (l.filter (fun e => !(e.1 == k))).find? (fun e => e.1 == k')
      = l.find? (fun e => e.1 == k') := by
  induction l with
  | nil => rfl
  | cons e t ih =>
      cases hek : (e.1 == k) with
      | true =>
          have hek' : (e.1 == k') = false := by
            have he : e.1 = k := by simpa using hek
            simp [he, Ne.symm h]
          simp [List.filter_cons, List.find?_cons, hek, hek', ih]
      | false =>
          cases hek' : (e.1 == k') with
          | true => simp [List.filter_cons, List.find?_cons, hek, hek']
          | false => simp [List.filter_cons, List.find?_cons, hek, hek', ih]

theorem Store.get_remove_self (st : Store) (k : String) : (st.remove k).get k = none := by
  have h : (st.entries.filter (fun e => !(e.1 == k))).find? (fun e => e.1 == k) = none := by
    rw [List.find?_eq_none]
    intro x hx
    simp only [List.mem_filter, Bool.not_eq_true'] at hx
    simp [hx.2]
  simp [Store.get, Store.remove, h]

theorem Store.get_remove_ne (st : Store) {k k' : String} (h : k' ≠ k) :
    (st.remove k).get k' = st.get k' := by
  simp only [Store.get, Store.remove]
  rw [find?_filter_key h]

theorem Store.get_set_ne (st : Store) {k k' : String} (v : String) (h : k' ≠ k) :
    ((st.set k v).get k') = st.get k' := by
  have h1 : (k == k') = false := by simp [Ne.symm h]
  simp only [Store.set, Store.get, Store.remove, List.find?_cons, h1]
  rw [find?_filter_key h]

theorem usernameKey_ne_displayNameKey (p : String) : usernameKey p ≠ displayNameKey p := by
  intro h
  have hlen := congrArg String.length h
  rw [usernameKey, displayNameKey, String.length_append, String.length_append] at hlen
  have h1 : "oauth_username_".length = 15 := rfl
  have h2 : "oauth_display_name_".length = 19 := rfl
  omega

/-! ## Traces free of database actions -/

theorem preTrace_nil : preTrace [] := by intro a ha; cases ha

theorem preTrace_append {t1 t2 : List NetAction} (h1 : preTrace t1) (h2 : preTrace t2) :
    preTrace (t1 ++ t2) := by
  intro a ha
  rcases List.mem_append.mp ha with h | h
  · exact h1 a h
  · exact h2 a h

theorem preTrace_fetch_acts (net : HttpRequest → HttpResponse) (platform accessToken : String) :
    preTrace (fetchAccountInfo net platform accessToken).2 := by
  unfold fetchAccountInfo
  cases platformEndpoint platform with
  | none => exact preTrace_nil
  | some url =>
      simp only
      split
      · split <;> (intro a ha; simp only [List.mem_singleton] at ha; subst ha; rfl)
      · intro a ha; simp only [List.mem_singleton] at ha; subst ha; rfl

theorem preTrace_dbSelect_not_mem {tr : List NetAction} (h : preTrace tr)
    (u p : String) (hd : Js) : NetAction.dbSelect u p hd ∉ tr := by
  intro hmem
  have := h _ hmem
  simp [isDbAction] at this

theorem preTrace_dbInsert_not_mem {tr : List NetAction} (h : preTrace tr) :
    NetAction.dbInsert ∉ tr := by
  intro hmem
  have := h _ hmem
  simp [isDbAction] at this

end OAuth

namespace OAuth

/-! ## Database invariant -/

theorem key_unique_mem {l : List SocialAccountRecord}
    (hp : l.Pairwise (fun a b => keyOf a ≠ keyOf b ∧ a.id ≠ b.id))
    {a b : SocialAccountRecord} (ha : a ∈ l) (hb : b ∈ l) (hk : keyOf a = keyOf b) :
    a = b := by
  induction l with
  | nil => cases ha
  | cons x t ih =>
      rcases List.pairwise_cons.mp hp with ⟨hx, ht⟩
      rcases List.mem_cons.mp ha with rfl | ha'
      · rcases List.mem_cons.mp hb with rfl | hb'
        · rfl
        · exact ((hx _ hb').1 hk).elim
      · rcases List.mem_cons.mp hb with rfl | hb'
        · exact ((hx _ ha').1 hk.symm).elim
        · exact ih ht ha' hb'

theorem recordMatches_iff {uid platform : String} {hd : Js} {r : SocialAccountRecord} :
    recordMatches uid platform hd r = true ↔ keyOf r = (uid, platform, hd) := by
  simp [recordMatches, keyOf, Prod.ext_iff, and_assoc]

/-! ## Facts about the persistence step -/

theorem persist_sessionStore (env : Env) (ls ss : Store) (db : DB) (tr : List NetAction)
    (uid platform : String) (info : AccountInfo) (td : TokenData) (sdn : Option String) :
    (stagePersist env ls ss db tr uid platform info td sdn).sessionStore = ss := by
  unfold stagePersist
  cases hf : db.find uid platform info.handle with
  | some ex => cases env.updateError <;> simp [errorOut]
  | none => cases env.insertError <;> simp [errorOut]

theorem persist_localStore (env : Env) (ls ss : Store) (db : DB) (tr : List NetAction)
    (uid platform : String) (info : AccountInfo) (td : TokenData) (sdn : Option String) :
    (stagePersist env ls ss db tr uid platform info td sdn).localStore = ls := by
  unfold stagePersist
  cases hf : db.find uid platform info.handle with
  | some ex => cases env.updateError <;> simp [errorOut]
  | none => cases env.insertError <;> simp [errorOut]

theorem persist_db_ss (env : Env) (ls : Store) (ssA ssB : Store) (db : DB)
    (tr : List NetAction) (uid platform : String) (info : AccountInfo) (td : TokenData)
    (sdn : Option String) :
    (stagePersist env ls ssA db tr uid platform info td sdn).db
      = (stagePersist env ls ssB db tr uid platform info td sdn).db := by
  unfold stagePersist
  cases hf : db.find uid platform info.handle with
  | some ex => cases env.updateError <;> simp [errorOut]
  | none => cases env.insertError <;> simp [errorOut]

theorem persist_found (env : Env) (ls ss : Store) (db : DB) (tr : List NetAction)
    (uid platform : String) (info : AccountInfo) (td : TokenData) (sdn : Option String)
    {ex : SocialAccountRecord} (hf : db.find uid platform info.handle = some ex) :
    (stagePersist env ls ss db tr uid platform info td sdn).trace
        = tr ++ [.dbSelect uid platform info.handle, .dbUpdate ex.id]
    ∧ (stagePersist env ls ss db tr uid platform info td sdn).db.rows.length
        = db.rows.length
    ∧ (env.updateError = none →
        (stagePersist env ls ss db tr uid platform info td sdn).db.rows
          = db.rows.map (fun r => if r.id = ex.id then updatedRow env td r else r))
    ∧ (env.updateError ≠ none →
        (stagePersist env ls ss db tr uid platform info td sdn).db = db
        ∧ (stagePersist env ls ss db tr uid platform info td sdn).status = .error) := by
  unfold stagePersist
  rw [hf]
  cases hu : env.updateError <;> simp [errorOut]

theorem persist_notfound (env : Env) (ls ss : Store) (db : DB) (tr : List NetAction)
    (uid platform : String) (info : AccountInfo) (td : TokenData) (sdn : Option String)
    (hf : db.find uid platform info.handle = none) :
    (stagePersist env ls ss db tr uid platform info td sdn).trace
        = tr ++ [.dbSelect uid platform info.handle, .dbInsert]
    ∧ (env.insertError = none →
        (stagePersist env ls ss db tr uid platform info td sdn).db.rows
          = db.rows ++ [insertedRow env db.nextId uid platform info td sdn])
    ∧ (env.insertError ≠ none →
        (stagePersist env ls ss db tr uid platform info td sdn).db = db
        ∧ (stagePersist env ls ss db tr uid platform info td sdn).status = .error) := by
  unfold stagePersist
  rw [hf]
  cases hu : env.insertError <;> simp [errorOut]

theorem persist_select_eq {env : Env} {ls ss : Store} {db : DB} {tr : List NetAction}
    {uid platform : String} {info : AccountInfo} {td : TokenData} {sdn : Option String}
    (hpre : preTrace tr) {u p : String} {hd : Js}
    (hmem : NetAction.dbSelect u p hd
      ∈ (stagePersist env ls ss db tr uid platform info td sdn).trace) :
    u = uid ∧ p = platform ∧ hd = info.handle := by
  revert hmem
  unfold stagePersist
  cases hf : db.find uid platform info.handle with
  | some ex =>
      cases env.updateError <;>
        · intro hmem
          simp only [errorOut, List.mem_append, List.mem_cons, List.mem_singleton,
            List.not_mem_nil, or_false] at hmem
          rcases hmem with hmem | hmem | hmem
          · exact absurd hmem (preTrace_dbSelect_not_mem hpre _ _ _)
          · injection hmem with h1 h2 h3; exact ⟨h1, h2, h3⟩
          · cases hmem
  | none =>
      cases env.insertError <;>
        · intro hmem
          simp only [errorOut, List.mem_append, List.mem_cons, List.mem_singleton,
            List.not_mem_nil, or_false] at hmem
          rcases hmem with hmem | hmem | hmem
          · exact absurd hmem (preTrace_dbSelect_not_mem hpre _ _ _)
          · injection hmem with h1 h2 h3; exact ⟨h1, h2, h3⟩
          · cases hmem

theorem persist_no_insert {env : Env} {ls ss : Store} {db : DB} {tr : List NetAction}
    {uid platform : String} {info : AccountInfo} {td : TokenData} {sdn : Option String}
    (hpre : preTrace tr) {ex : SocialAccountRecord}
    (hf : db.find uid platform info.handle = some ex) :
    NetAction.dbInsert ∉ (stagePersist env ls ss db tr uid platform info td sdn).trace := by
  rw [(persist_found env ls ss db tr uid platform info td sdn hf).1]
  intro hmem
  simp only [List.mem_append, List.mem_cons, List.mem_singleton, List.not_mem_nil,
    or_false] at hmem
  rcases hmem with hmem | hmem | hmem
  · exact preTrace_dbInsert_not_mem hpre hmem
  · cases hmem
  · cases hmem

theorem persist_inv {env : Env} {ls ss : Store} {db : DB} {tr : List NetAction}
    {uid platform : String} {info : AccountInfo} {td : TokenData} {sdn : Option String}
    (hinv : DBinv db) :
    DBinv (stagePersist env ls ss db tr uid platform info td sdn).db := by
  unfold stagePersist
  cases hf : db.find uid platform info.handle with
  | some ex =>
      cases env.updateError with
      | some e => simpa [errorOut] using hinv
      | none =>
          simp only [DBinv, errorOut]
          constructor
          · rw [List.pairwise_map]
            refine hinv.1.imp ?_
            intro a b hab
            have ka : ∀ r : SocialAccountRecord,
                keyOf (if r.id = ex.id then updatedRow env td r else r) = keyOf r := by
              intro r; by_cases hr : r.id = ex.id <;> simp [hr, updatedRow, keyOf]
            have ia : ∀ r : SocialAccountRecord,
                (if r.id = ex.id then updatedRow env td r else r).id = r.id := by
              intro r; by_cases hr : r.id = ex.id <;> simp [hr, updatedRow]
            rw [ka a, ka b, ia a, ia b]
            exact hab
          · intro r hr
            rcases List.mem_map.mp hr with ⟨s, hs, rfl⟩
            have hlt := hinv.2 s hs
            by_cases h : s.id = ex.id <;> simp only [h, if_true, if_false, updatedRow] <;> omega
  | none =>
      cases env.insertError with
      | some e => simpa [errorOut] using hinv
      | none =>
          have hnomatch : ∀ r ∈ db.rows, ¬ keyOf r = (uid, platform, info.handle) := by
            intro r hr hEq
            have hm := List.find?_eq_none.mp hf r hr
            exact hm (recordMatches_iff.mpr hEq)
          simp only [DBinv, errorOut]
          constructor
          · rw [List.pairwise_append]
            refine ⟨hinv.1, List.pairwise_singleton _ _, ?_⟩
            intro a ha b hb
            simp only [List.mem_singleton] at hb
            subst hb
            constructor
            · intro hEq
              exact hnomatch a ha hEq
            · have := hinv.2 a ha
              simp only [insertedRow]
              omega
          · intro r hr
            rcases List.mem_append.mp hr with h | h
            · have := hinv.2 r h; omega
            · simp only [List.mem_singleton] at h
              subst h
              simp [insertedRow]

end OAuth

namespace OAuth

/-! ## Decomposition of a run: every invocation either stops in an error
state without touching the database, or reaches the persistence step with
a database-action-free prefix trace and the session-storage hints already
read and removed. -/

theorem hints_reaches (env : Env) (ls ss : Store) (db : DB) (tr : List NetAction)
    (uid platform : String) (info : AccountInfo) (td : TokenData) (hpre : preTrace tr) :
    ReachesPersist env ss db platform (stageHints env ls ss db tr uid platform info td) :=
  Or.inr ⟨ls, tr, uid, info, td, rfl, hpre⟩

theorem fetch_reaches (env : Env) (ls ss : Store) (db : DB) (tr : List NetAction)
    (uid platform : String) (td : TokenData) (hpre : preTrace tr) :
    ReachesPersist env ss db platform (stageFetch env ls ss db tr uid platform td) := by
  have hacts := preTrace_fetch_acts env.net platform td.access_token
  unfold stageFetch
  rcases hfa : fetchAccountInfo env.net platform td.access_token with ⟨res, acts⟩
  rw [hfa] at hacts
  cases res with
  | error e =>
      exact Or.inl ⟨rfl, rfl, preTrace_append hpre hacts⟩
  | ok info =>
      exact hints_reaches env ls ss db (tr ++ acts) uid platform info td
        (preTrace_append hpre hacts)

theorem exchange_reaches (env : Env) (ls ss : Store) (db : DB) (tr : List NetAction)
    (uid platform code st : String) (hpre : preTrace tr) :
    ReachesPersist env ss db platform
      (stageExchange env ls ss db tr uid platform code st) := by
  have hpre' : preTrace (tr ++ [NetAction.tokenExchange platform code st]) :=
    preTrace_append hpre (by intro a ha; simp only [List.mem_singleton] at ha; subst ha; rfl)
  unfold stageExchange
  cases hx : env.exchange platform code st with
  | error e => exact Or.inl ⟨rfl, rfl, hpre'⟩
  | ok td => exact fetch_reaches env ls ss db _ uid platform td hpre'

theorem session_reaches (env : Env) (ls ss : Store) (db : DB) (tr : List NetAction)
    (platform code st : String) (hpre : preTrace tr) :
    ReachesPersist env ss db platform
      (stageSession env ls ss db tr platform code st) := by
  have hpre1 : preTrace (tr ++ [NetAction.getSession]) :=
    preTrace_append hpre (by intro a ha; simp only [List.mem_singleton] at ha; subst ha; rfl)
  have hpre2 : preTrace (tr ++ [NetAction.getSession] ++ [NetAction.setSession]) :=
    preTrace_append hpre1
      (by intro a ha; simp only [List.mem_singleton] at ha; subst ha; rfl)
  unfold stageSession
  split
  · exact exchange_reaches env ls ss db _ _ platform code st hpre1
  · split
    · split
      · exact Or.inl ⟨rfl, rfl, hpre1⟩
      · split
        · exact Or.inl ⟨rfl, rfl, hpre1⟩
        · split
          · exact Or.inl ⟨rfl, rfl, hpre1⟩
          · split
            · exact exchange_reaches env _ ss db _ _ platform code st hpre2
            · exact Or.inl ⟨rfl, rfl, hpre2⟩
    · exact Or.inl ⟨rfl, rfl, hpre1⟩

theorem run_reaches (env : Env) (ls ss : Store) (db : DB) :
    ReachesPersist env ss db (lastSegment env.pathname)
      (handleOAuthCallback env ls ss db) := by
  unfold handleOAuthCallback
  split
  · exact Or.inl ⟨rfl, rfl, preTrace_nil⟩
  · split
    · split
      · exact Or.inl ⟨rfl, rfl, preTrace_nil⟩
      · exact session_reaches env ls ss db [] _ _ _ preTrace_nil
    · exact Or.inl ⟨rfl, rfl, preTrace_nil⟩

end OAuth

namespace OAuth

/-! ## The stages after session restoration never write localStorage -/

theorem hints_localStore (env : Env) (ls ss : Store) (db : DB) (tr : List NetAction)
    (uid platform : String) (info : AccountInfo) (td : TokenData) :
    (stageHints env ls ss db tr uid platform info td).localStore = ls :=
  persist_localStore env ls _ db tr uid platform info td _

theorem fetch_localStore (env : Env) (ls ss : Store) (db : DB) (tr : List NetAction)
    (uid platform : String) (td : TokenData) :
    (stageFetch env ls ss db tr uid platform td).localStore = ls := by
  unfold stageFetch
  rcases hfa : fetchAccountInfo env.net platform td.access_token with ⟨res, acts⟩
  cases res with
  | error e => rfl
  | ok info => exact hints_localStore env ls ss db (tr ++ acts) uid platform info td

theorem exchange_localStore (env : Env) (ls ss : Store) (db : DB) (tr : List NetAction)
    (uid platform code st : String) :
    (stageExchange env ls ss db tr uid platform code st).localStore = ls := by
  unfold stageExchange
  cases hx : env.exchange platform code st with
  | error e => rfl
  | ok td => exact fetch_localStore env ls ss db _ uid platform td

/-! ## The database outcome does not depend on sessionStorage beyond the
display-name hint -/

theorem hints_db_ss (env : Env) (ls : Store) {ssA ssB : Store} (db : DB)
    (tr : List NetAction) (uid platform : String) (info : AccountInfo) (td : TokenData)
    (h : ssA.get (displayNameKey platform) = ssB.get (displayNameKey platform)) :
    (stageHints env ls ssA db tr uid platform info td).db
      = (stageHints env ls ssB db tr uid platform info td).db := by
  unfold stageHints
  rw [h]
  exact persist_db_ss env ls _ _ db tr uid platform info td _

theorem fetch_db_ss (env : Env) (ls : Store) {ssA ssB : Store} (db : DB)
    (tr : List NetAction) (uid platform : String) (td : TokenData)
    (h : ssA.get (displayNameKey platform) = ssB.get (displayNameKey platform)) :
    (stageFetch env ls ssA db tr uid platform td).db
      = (stageFetch env ls ssB db tr uid platform td).db := by
  unfold stageFetch
  rcases hfa : fetchAccountInfo env.net platform td.access_token with ⟨res, acts⟩
  cases res with
  | error e => rfl
  | ok info => exact hints_db_ss env ls db (tr ++ acts) uid platform info td h

theorem exchange_db_ss (env : Env) (ls : Store) {ssA ssB : Store} (db : DB)
    (tr : List NetAction) (uid platform code st : String)
    (h : ssA.get (displayNameKey platform) = ssB.get (displayNameKey platform)) :
    (stageExchange env ls ssA db tr uid platform code st).db
      = (stageExchange env ls ssB db tr uid platform code st).db := by
  unfold stageExchange
  cases hx : env.exchange platform code st with
  | error e => rfl
  | ok td => exact fetch_db_ss env ls db _ uid platform td h

theorem session_db_ss (env : Env) (ls : Store) {ssA ssB : Store} (db : DB)
    (tr : List NetAction) (platform code st : String)
    (h : ssA.get (displayNameKey platform) = ssB.get (displayNameKey platform)) :
    (stageSession env ls ssA db tr platform code st).db
      = (stageSession env ls ssB db tr platform code st).db := by
  unfold stageSession
  split
  · exact exchange_db_ss env ls db _ _ platform code st h
  · split
    · split
      · rfl
      · split
        · rfl
        · split
          · rfl
          · split
            · exact exchange_db_ss env _ db _ _ platform code st h
            · rfl
    · rfl

theorem run_db_ss (env : Env) (ls : Store) {ssA ssB : Store} (db : DB)
    (h : ssA.get (displayNameKey (lastSegment env.pathname))
          = ssB.get (displayNameKey (lastSegment env.pathname))) :
    (handleOAuthCallback env ls ssA db).db = (handleOAuthCallback env ls ssB db).db := by
  unfold handleOAuthCallback
  split
  · rfl
  · split
    · split
      · rfl
      · exact session_db_ss env ls db [] _ _ _ h
    · rfl

/-! ## Success output shape of the persistence step -/

theorem persist_success_final (env : Env) (ls ss : Store) (db : DB) (tr : List NetAction)
    (uid platform : String) (info : AccountInfo) (td : TokenData) (sdn : Option String)
    (h : (stagePersist env ls ss db tr uid platform info td sdn).status = .success) :
    (stagePersist env ls ss db tr uid platform info td sdn).finalActs
      = successFinalActs env.hasOpener platform := by
  revert h
  unfold stagePersist
  cases hf : db.find uid platform info.handle with
  | some ex => cases env.updateError <;> intro h <;> first | rfl | simp [errorOut] at h
  | none => cases env.insertError <;> intro h <;> first | rfl | simp [errorOut] at h

end OAuth

namespace OAuth

theorem Js.get_isSome {v : Js} (hn : v ≠ .null) (hu : v ≠ .undefined) (k : String) :
    ∃ w, v.get k = some w := by
  cases v
  · exact absurd rfl hn
  · exact absurd rfl hu
  · exact ⟨_, rfl⟩
  · exact ⟨_, rfl⟩
  · exact ⟨_, rfl⟩

/-! ## Claims -/

/-- C2: for the redirect `?code=abc&state=xyz` on path
`/oauth/callback/twitter` with a valid stored session, a token exchange
returning access token `tok` with `expires_in` 3600 and a Twitter profile
response naming `Jane` / `jane_d`, the handler persists exactly one record
with platform `twitter`, account_name `Jane`, account_handle `@jane_d`,
is_connected true, and the UI status transitions to success. -/
theorem claim2_scenario_record :
    outTw.status = .success
    ∧ outTw.db.rows =
      [{ id := 0, user_id := "user-1", platform := "twitter",
         account_name := .str "Jane", account_handle := .str "@jane_d",
         access_token := "tok", refresh_token := none,
         token_expires_at := some (1700000000000 + 3600 * 1000),
         is_connected := true, updated_at := none }] := by
  decide

/-- C6: when the redirect carries no platform error parameter and lacks
`code` or `state`, the handler reaches the error state having performed no
network or database operation and leaves the table untouched. -/
theorem claim6_missing_params (env : Env) (ls ss : Store) (db : DB)
    (herr : env.search.error = none)
    (h : env.search.code = none ∨ env.search.state = none) :
    (handleOAuthCallback env ls ss db).status = .error
    ∧ (handleOAuthCallback env ls ss db).trace = []
    ∧ (handleOAuthCallback env ls ss db).db = db := by
  have h1 : optStrTruthy env.search.error = false := by rw [herr]; rfl
  have h2 : (optStrTruthy env.search.code && optStrTruthy env.search.state) = false := by
    rcases h with h | h <;> rw [h] <;> simp [optStrTruthy]
  unfold handleOAuthCallback
  simp [h1, h2, errorOut]

theorem claim6_witness :
    (handleOAuthCallback envNoCode lsTw Store.empty dbEmpty).status = .error
    ∧ (handleOAuthCallback envNoCode lsTw Store.empty dbEmpty).trace = [] := by
  have h := claim6_missing_params envNoCode lsTw Store.empty dbEmpty rfl (Or.inl rfl)
  exact ⟨h.1, h.2.1⟩

/-- C7 counterexample: a redirect that carries the `error` query parameter
with an empty value (`?error=`) together with valid `code` and `state` does
not short-circuit: the handler performs the session read (and the whole
flow), refuting the claim that any redirect containing an `error`
parameter reaches the error state before session restoration. -/
theorem claim7_counterexample :
    NetAction.getSession ∈ (handleOAuthCallback envEmptyErr lsTw Store.empty dbEmpty).trace
    ∧ (handleOAuthCallback envEmptyErr lsTw Store.empty dbEmpty).status = .success := by
  decide

/-- C7 (amended): a redirect whose `error` query parameter is present with
a non-empty value reaches the error state with no network or database
operation performed, before any session restoration. -/
theorem claim7_platform_error (env : Env) (ls ss : Store) (db : DB) (e : String)
    (herr : env.search.error = some e) (hne : e ≠ "") :
    (handleOAuthCallback env ls ss db).status = .error
    ∧ (handleOAuthCallback env ls ss db).trace = []
    ∧ (handleOAuthCallback env ls ss db).db = db := by
  have h1 : optStrTruthy env.search.error = true := by
    rw [herr]; simp [optStrTruthy, hne]
  unfold handleOAuthCallback
  simp [h1, errorOut]

theorem claim7_witness :
    (handleOAuthCallback envDenied lsTw Store.empty dbEmpty).status = .error
    ∧ (handleOAuthCallback envDenied lsTw Store.empty dbEmpty).trace = [] := by
  have h := claim7_platform_error envDenied lsTw Store.empty dbEmpty "access_denied" rfl
    (by decide)
  exact ⟨h.1, h.2.1⟩

/-- C8: for any platform identifier outside the five supported values,
`fetchAccountInfo` fails with the unsupported-platform error before
issuing any network request. -/
theorem claim8_unsupported_platform (net : HttpRequest → HttpResponse)
    (platform accessToken : String)
    (h : platform ∉ ["twitter", "linkedin", "instagram", "facebook", "tiktok"]) :
    fetchAccountInfo net platform accessToken
      = (Except.error ("Unsupported platform: " ++ platform), []) := by
  have he : platformEndpoint platform = none := by
    unfold platformEndpoint
    split <;> simp_all
  unfold fetchAccountInfo
  rw [he]

theorem claim8_witness :
    fetchAccountInfo envTw.net "myspace" "tok"
      = (Except.error ("Unsupported platform: " ++ "myspace"), []) :=
  claim8_unsupported_platform envTw.net "myspace" "tok" (by decide)

/-- C4 counterexample: with no active session and a malformed (unparseable)
session snapshot stored under the platform-scoped key, the handler reads
the snapshot, fails, and leaves the snapshot in storage: the deletion
promised for the malformed case never happens, because `removeItem` sits
inside the `try` block after `JSON.parse`. -/
theorem claim4_counterexample :
    (handleOAuthCallback envBadSnap lsBadSnap Store.empty dbEmpty).status = .error
    ∧ (handleOAuthCallback envBadSnap lsBadSnap Store.empty dbEmpty).localStore.get
        (sessionKey "twitter") = some "garbage" := by
  decide

/-- C4 (amended): when no active session exists and the stored snapshot
parses (to a non-null object), the snapshot is deleted from storage
regardless of the outcome of the backend session-set operation and of the
rest of the flow; a snapshot whose parse throws is left in storage. -/
theorem claim4_snapshot_deletion (env : Env) (ls ss : Store) (db : DB) (parsed : Js)
    (herr : optStrTruthy env.search.error = false)
    (hcs : (optStrTruthy env.search.code && optStrTruthy env.search.state) = true)
    (hplat : ¬ lastSegment env.pathname = "")
    (hactive : env.activeSession = none)
    (hsaved : optStrTruthy (ls.get (sessionKey (lastSegment env.pathname))) = true)
    (hparse : env.parseSession ((ls.get (sessionKey (lastSegment env.pathname))).getD "")
        = some parsed)
    (hn : parsed ≠ .null) (hu : parsed ≠ .undefined) :
    (handleOAuthCallback env ls ss db).localStore.get
      (sessionKey (lastSegment env.pathname)) = none := by
  obtain ⟨a1, ha1⟩ := Js.get_isSome hn hu "access_token"
  obtain ⟨a2, ha2⟩ := Js.get_isSome hn hu "refresh_token"
  unfold handleOAuthCallback
  simp only [herr, Bool.false_eq_true, if_false, hcs, if_true, hplat]
  unfold stageSession
  simp only [hactive, hsaved, if_true, hparse, ha1, ha2]
  cases hset : env.setSession a1 a2 with
  | some u =>
      rw [exchange_localStore]
      exact Store.get_remove_self ls _
  | none =>
      simp only [errorOut]
      exact Store.get_remove_self ls _

theorem claim4_witness :
    (handleOAuthCallback envTw lsTw Store.empty dbEmpty).localStore.get
      (sessionKey "twitter") = none := by
  have h := claim4_snapshot_deletion envTw lsTw Store.empty dbEmpty
      (.obj (.cons "access_token" (.str "sat") (.cons "refresh_token" (.str "srt") .nil)))
      rfl rfl (by decide) rfl rfl rfl (by decide) (by decide)
  exact h

end OAuth

namespace OAuth

/-- C5 counterexample: on a successful run of the handle-aware handler with
an opener present, the scheduled epilogue calls `window.close()` first and
posts the completion message afterwards, refuting the claimed
post-then-close order; moreover no navigation to the application root is
ever scheduled when the opener is absent. -/
theorem claim5_counterexample :
    outTw.status = .success
    ∧ outTw.finalActs = [.close, .post ⟨"oauth_success", "twitter"⟩]
    ∧ outTw.finalActs ≠ [.post ⟨"oauth_success", "twitter"⟩, .close]
    ∧ (handleOAuthCallback { envTw with hasOpener := false } lsTw Store.empty dbEmpty).finalActs
        = [.close] := by
  decide

/-- C5 (amended): on reaching the success state, after the fixed display
delay the handle-aware controller first calls `window.close()` and then
posts `oauth_success` with the platform name to the opener when an opener
exists; when no opener exists it only attempts to close and never
navigates to the application root. -/
theorem claim5_success_epilogue (env : Env) (ls ss : Store) (db : DB)
    (h : (handleOAuthCallback env ls ss db).status = .success) :
    (handleOAuthCallback env ls ss db).finalActs
      = .close :: (if env.hasOpener then
          [.post ⟨"oauth_success", lastSegment env.pathname⟩] else []) := by
  rcases run_reaches env ls ss db with ⟨_, hst, _⟩ | ⟨ls2, tr, uid, info, td, heq, hpre⟩
  · rw [hst] at h
    exact UiStatus.noConfusion h
  · rw [heq] at h ⊢
    rw [persist_success_final _ _ _ _ _ _ _ _ _ _ h]
    rfl

theorem claim5_witness :
    (handleOAuthCallback envTw lsTw Store.empty dbEmpty).finalActs
      = .close :: (if envTw.hasOpener then
          [.post ⟨"oauth_success", lastSegment envTw.pathname⟩] else []) :=
  claim5_success_epilogue envTw lsTw Store.empty dbEmpty (by decide)

/-- C1: the handler preserves the table invariant (at most one row per
(user_id, platform, account_handle) tuple), so after any sequence of
callbacks at most one record exists per tuple; moreover, whenever the
persistence step looked up a key for which a record already exists, the
run performs no insert, the row count is unchanged, and a successful run
rewrote exactly that record with the fresh tokens, expiry and connected
flag. -/
theorem claim1_upsert_idempotent (env : Env) (ls ss : Store) (db : DB)
    (hinv : DBinv db) :
    DBinv (handleOAuthCallback env ls ss db).db
    ∧ ∀ (u p : String) (hd : Js), ∀ r ∈ db.rows, keyOf r = (u, p, hd) →
        NetAction.dbSelect u p hd ∈ (handleOAuthCallback env ls ss db).trace →
        (handleOAuthCallback env ls ss db).db.rows.length = db.rows.length
        ∧ NetAction.dbInsert ∉ (handleOAuthCallback env ls ss db).trace
        ∧ ((handleOAuthCallback env ls ss db).status = .success →
            ∃ td, (handleOAuthCallback env ls ss db).db.rows
              = db.rows.map (fun s => if s.id = r.id then updatedRow env td s else s)) := by
  rcases run_reaches env ls ss db with ⟨hdb, hst, hpre⟩ | ⟨ls2, tr, uid, info, td, heq, hpre⟩
  · refine ⟨by rw [hdb]; exact hinv, ?_⟩
    intro u p hd r hr hk hmem
    exact absurd hmem (preTrace_dbSelect_not_mem hpre u p hd)
  · refine ⟨by rw [heq]; exact persist_inv hinv, ?_⟩
    intro u p hd r hr hk hmem
    rw [heq] at hmem
    obtain ⟨hu, hp, hh⟩ := persist_select_eq hpre hmem
    have hk' : keyOf r = (uid, lastSegment env.pathname, info.handle) := by
      rw [hk, hu, hp, hh]
    have hmatch : recordMatches uid (lastSegment env.pathname) info.handle r = true :=
      recordMatches_iff.mpr hk'
    cases hf : db.find uid (lastSegment env.pathname) info.handle with
    | none =>
        have := List.find?_eq_none.mp hf r hr
        rw [hmatch] at this
        exact absurd rfl this
    | some ex =>
        have hfound := persist_found env ls2
          ((ss.remove (usernameKey (lastSegment env.pathname))).remove
            (displayNameKey (lastSegment env.pathname))) db tr uid
          (lastSegment env.pathname) info td
          (ss.get (displayNameKey (lastSegment env.pathname))) hf
        have hexmem : ex ∈ db.rows := List.mem_of_find?_eq_some hf
        have hexmatch := List.find?_some hf
        have hexkey : keyOf ex = (uid, lastSegment env.pathname, info.handle) :=
          recordMatches_iff.mp hexmatch
        have hexr : ex = r := key_unique_mem hinv.1 hexmem hr (hexkey.trans hk'.symm)
        refine ⟨by rw [heq]; exact hfound.2.1, ?_, ?_⟩
        · rw [heq]
          exact persist_no_insert hpre hf
        · intro hsucc
          rw [heq] at hsucc ⊢
          cases hue : env.updateError with
          | some e =>
              have hfail := hfound.2.2.2 (by rw [hue]; exact Option.some_ne_none e)
              rw [hfail.2] at hsucc
              exact UiStatus.noConfusion hsucc
          | none =>
              refine ⟨td, ?_⟩
              rw [hfound.2.2.1 hue, hexr]

theorem claim1_witness :
    DBinv (handleOAuthCallback envTw lsTw Store.empty dbEmpty).db :=
  (claim1_upsert_idempotent envTw lsTw Store.empty dbEmpty
    ⟨List.Pairwise.nil, by intro r hr; cases hr⟩).1

/-- C9: whenever the persistence step looked up a key held by an existing
row, the table is either unchanged (failed update) or equal to the old
table with exactly that row replaced by `updatedRow`, which rewrites only
access_token, refresh_token, token_expires_at, is_connected and
updated_at; account_name, account_handle, user_id, platform and the row id
are left unchanged by `updatedRow`. -/
theorem claim9_update_frame (env : Env) (ls ss : Store) (db : DB)
    (hinv : DBinv db) (u p : String) (hd : Js)
    (r : SocialAccountRecord) (hr : r ∈ db.rows) (hk : keyOf r = (u, p, hd))
    (hmem : NetAction.dbSelect u p hd ∈ (handleOAuthCallback env ls ss db).trace) :
    ((handleOAuthCallback env ls ss db).db.rows = db.rows
      ∨ ∃ td, (handleOAuthCallback env ls ss db).db.rows
          = db.rows.map (fun s => if s.id = r.id then updatedRow env td s else s))
    ∧ ∀ (td : TokenData) (s : SocialAccountRecord),
        (updatedRow env td s).account_name = s.account_name
        ∧ (updatedRow env td s).account_handle = s.account_handle
        ∧ (updatedRow env td s).user_id = s.user_id
        ∧ (updatedRow env td s).platform = s.platform
        ∧ (updatedRow env td s).id = s.id := by
  refine ⟨?_, fun td s => ⟨rfl, rfl, rfl, rfl, rfl⟩⟩
  rcases run_reaches env ls ss db with ⟨hdb, hst, hpre⟩ | ⟨ls2, tr, uid, info, td, heq, hpre⟩
  · exact absurd hmem (preTrace_dbSelect_not_mem hpre u p hd)
  · rw [heq] at hmem
    obtain ⟨hu, hp, hh⟩ := persist_select_eq hpre hmem
    have hk' : keyOf r = (uid, lastSegment env.pathname, info.handle) := by
      rw [hk, hu, hp, hh]
    have hmatch : recordMatches uid (lastSegment env.pathname) info.handle r = true :=
      recordMatches_iff.mpr hk'
    cases hf : db.find uid (lastSegment env.pathname) info.handle with
    | none =>
        have := List.find?_eq_none.mp hf r hr
        rw [hmatch] at this
        exact absurd rfl this
    | some ex =>
        have hfound := persist_found env ls2
          ((ss.remove (usernameKey (lastSegment env.pathname))).remove
            (displayNameKey (lastSegment env.pathname))) db tr uid
          (lastSegment env.pathname) info td
          (ss.get (displayNameKey (lastSegment env.pathname))) hf
        have hexmem : ex ∈ db.rows := List.mem_of_find?_eq_some hf
        have hexkey : keyOf ex = (uid, lastSegment env.pathname, info.handle) :=
          recordMatches_iff.mp (List.find?_some hf)
        have hexr : ex = r := key_unique_mem hinv.1 hexmem hr (hexkey.trans hk'.symm)
        cases hue : env.updateError with
        | some e =>
            left
            rw [heq]
            have hfail := hfound.2.2.2 (by rw [hue]; exact Option.some_ne_none e)
            rw [hfail.1]
        | none =>
            right
            refine ⟨td, ?_⟩
            rw [heq, hfound.2.2.1 hue, hexr]

theorem claim9_witness :
    (updatedRow envTw ⟨"t2", none, none⟩ rowTw).account_name = rowTw.account_name := by
  have h := claim9_update_frame envTw lsTw Store.empty dbTw
    ⟨List.pairwise_singleton _ _, by intro r hr; simp [dbTw] at hr; subst hr; decide⟩
    "user-1" "twitter" (.str "@jane_d") rowTw (by simp [dbTw]) rfl (by decide)
  exact (h.2 ⟨"t2", none, none⟩ rowTw).1

end OAuth

namespace OAuth

/-- C3: for each supported platform, `fetchAccountInfo` issues exactly one
request to the documented endpoint carrying the bearer-token Authorization
header, and normalizes the response by the documented extraction rule:
twitter name is `data.data.name` falling back to `data.data.username` with
handle `"@" ++ username`; linkedin name is first and last localized name
joined by a space with handle `id`; instagram name is `username` with
handle `"@" ++ username`; facebook name is `name` with handle `id`; tiktok
name is `data.data.user.display_name` with handle
`data.data.user.open_id`. -/
theorem claim3_profile_extraction :
    (∀ accessToken n u : String,
      fetchAccountInfo
        (fun _ => ⟨true, .obj (.cons "data" (.obj (.cons "name" (.str n)
          (.cons "username" (.str u) .nil))) .nil)⟩) "twitter" accessToken
        = (Except.ok ⟨if n = "" then .str u else .str n, .str ("@" ++ u)⟩,
           [NetAction.profileFetch "https://api.twitter.com/2/users/me"
             ("Bearer " ++ accessToken)]))
    ∧ (∀ accessToken f l i : String,
      fetchAccountInfo
        (fun _ => ⟨true, .obj (.cons "localizedFirstName" (.str f)
          (.cons "localizedLastName" (.str l) (.cons "id" (.str i) .nil)))⟩)
        "linkedin" accessToken
        = (Except.ok ⟨.str (f ++ " " ++ l), .str i⟩,
           [NetAction.profileFetch "https://api.linkedin.com/v2/me"
             ("Bearer " ++ accessToken)]))
    ∧ (∀ accessToken i u : String,
      fetchAccountInfo
        (fun _ => ⟨true, .obj (.cons "id" (.str i) (.cons "username" (.str u) .nil))⟩)
        "instagram" accessToken
        = (Except.ok ⟨.str u, .str ("@" ++ u)⟩,
           [NetAction.profileFetch "https://graph.instagram.com/me?fields=id,username"
             ("Bearer " ++ accessToken)]))
    ∧ (∀ accessToken i n : String,
      fetchAccountInfo
        (fun _ => ⟨true, .obj (.cons "id" (.str i) (.cons "name" (.str n) .nil))⟩)
        "facebook" accessToken
        = (Except.ok ⟨.str n, .str i⟩,
           [NetAction.profileFetch "https://graph.facebook.com/me?fields=id,name"
             ("Bearer " ++ accessToken)]))
    ∧ (∀ accessToken dn oi : String,
      fetchAccountInfo
        (fun _ => ⟨true, .obj (.cons "data" (.obj (.cons "user"
          (.obj (.cons "display_name" (.str dn) (.cons "open_id" (.str oi) .nil)))
          .nil)) .nil)⟩)
        "tiktok" accessToken
        = (Except.ok ⟨.str dn, .str oi⟩,
           [NetAction.profileFetch
             "https://open-api.tiktok.com/user/info/?fields=open_id,union_id,avatar_url,display_name"
             ("Bearer " ++ accessToken)])) := by
  refine ⟨?_, ?_, ?_, ?_, ?_⟩
  · intro accessToken n u
    by_cases h : n = "" <;>
      simp [fetchAccountInfo, platformEndpoint, extractAccountInfo, Js.get,
        JsFields.lookup, Js.orElse, Js.truthy, Js.display, h]
  · intro accessToken f l i
    simp [fetchAccountInfo, platformEndpoint, extractAccountInfo, Js.get,
      JsFields.lookup, Js.display]
  · intro accessToken i u
    simp [fetchAccountInfo, platformEndpoint, extractAccountInfo, Js.get,
      JsFields.lookup, Js.display]
  · intro accessToken i n
    simp [fetchAccountInfo, platformEndpoint, extractAccountInfo, Js.get,
      JsFields.lookup, Js.display]
  · intro accessToken dn oi
    simp [fetchAccountInfo, platformEndpoint, extractAccountInfo, Js.get,
      JsFields.lookup, Js.display]

/-- C10 counterexample: an empty-string display-name hint is present in
sessionStorage, yet the persisted account_name on first-connect insert is
the fetched profile name, not the hint, because `storedDisplayName ||
accountInfo.name` treats the empty string as falsy. -/
theorem claim10_counterexample :
    (handleOAuthCallback envTw lsTw ssEmptyHint dbEmpty).db.rows.map
        (fun r => r.account_name) = [Js.str "Jane"]
    ∧ ssEmptyHint.get (displayNameKey "twitter") = some ""
    ∧ Js.str "Jane" ≠ Js.str "" := by
  decide

/-- C10 (amended): once the persistence step is reached, both
sessionStorage hints have been removed; the username hint never influences
the resulting table; any first-connect insert appends exactly
`insertedRow` built from the display-name hint read from the original
sessionStorage; and that row's account_name is the hint whenever the hint
is present and non-empty, and the fetched profile name when the hint is
absent or empty. -/
theorem claim10_display_hint (env : Env) (ls ss : Store) (db : DB) :
    (∀ (u p : String) (hd : Js),
        NetAction.dbSelect u p hd ∈ (handleOAuthCallback env ls ss db).trace →
        (handleOAuthCallback env ls ss db).sessionStore.get
            (usernameKey (lastSegment env.pathname)) = none
        ∧ (handleOAuthCallback env ls ss db).sessionStore.get
            (displayNameKey (lastSegment env.pathname)) = none)
    ∧ (∀ v, (handleOAuthCallback env ls
          (ss.set (usernameKey (lastSegment env.pathname)) v) db).db
        = (handleOAuthCallback env ls ss db).db)
    ∧ (∀ nr, (handleOAuthCallback env ls ss db).db.rows = db.rows ++ [nr] →
        ∃ uid info td,
          nr = insertedRow env db.nextId uid (lastSegment env.pathname) info td
            (ss.get (displayNameKey (lastSegment env.pathname))))
    ∧ (∀ (rid : Nat) (uid p : String) (info : AccountInfo) (td : TokenData),
        (∀ d, d ≠ "" → (insertedRow env rid uid p info td (some d)).account_name = .str d)
        ∧ (insertedRow env rid uid p info td none).account_name = info.name
        ∧ (insertedRow env rid uid p info td (some "")).account_name = info.name) := by
  refine ⟨?_, ?_, ?_, ?_⟩
  · intro u p hd hmem
    rcases run_reaches env ls ss db with ⟨hdb, hst, hpre⟩ | ⟨ls2, tr, uid, info, td, heq, hpre⟩
    · exact absurd hmem (preTrace_dbSelect_not_mem hpre u p hd)
    · rw [heq, persist_sessionStore]
      constructor
      · rw [Store.get_remove_ne _ (usernameKey_ne_displayNameKey _)]
        exact Store.get_remove_self ss _
      · exact Store.get_remove_self _ _
  · intro v
    exact run_db_ss env ls db
      (Store.get_set_ne ss v (usernameKey_ne_displayNameKey (lastSegment env.pathname)).symm)
  · intro nr hins
    rcases run_reaches env ls ss db with ⟨hdb, hst, hpre⟩ | ⟨ls2, tr, uid, info, td, heq, hpre⟩
    · rw [hdb] at hins
      have := congrArg List.length hins
      simp at this
    · rw [heq] at hins
      cases hf : db.find uid (lastSegment env.pathname) info.handle with
      | some ex =>
          have hlen := (persist_found env ls2
            ((ss.remove (usernameKey (lastSegment env.pathname))).remove
              (displayNameKey (lastSegment env.pathname))) db tr uid
            (lastSegment env.pathname) info td
            (ss.get (displayNameKey (lastSegment env.pathname))) hf).2.1
          rw [hins] at hlen
          simp at hlen
      | none =>
          have hnf := persist_notfound env ls2
            ((ss.remove (usernameKey (lastSegment env.pathname))).remove
              (displayNameKey (lastSegment env.pathname))) db tr uid
            (lastSegment env.pathname) info td
            (ss.get (displayNameKey (lastSegment env.pathname))) hf
          cases hie : env.insertError with
          | some e =>
              have hdb2 := (hnf.2.2 (by rw [hie]; exact Option.some_ne_none e)).1
              rw [hdb2] at hins
              have := congrArg List.length hins
              simp at this
          | none =>
              have hrows := hnf.2.1 hie
              rw [hrows] at hins
              have heqRow : insertedRow env db.nextId uid (lastSegment env.pathname) info td
                  (ss.get (displayNameKey (lastSegment env.pathname))) = nr := by
                have h2 := List.append_cancel_left hins
                simpa using h2
              exact ⟨uid, info, td, heqRow.symm⟩
  · intro rid uid p info td
    refine ⟨?_, rfl, ?_⟩
    · intro d hd
      simp [insertedRow, displayNameOr, hd]
    · simp [insertedRow, displayNameOr]

end OAuth

namespace OAuth

theorem claim10_witness :
    (handleOAuthCallback envTw lsTw ssHint dbEmpty).sessionStore.get
      (usernameKey "twitter") = none := by
  have h := (claim10_display_hint envTw lsTw ssHint dbEmpty).1 "user-1" "twitter"
    (.str "@jane_d") (by decide)
  exact h.1

end OAuth
